import Mathlib

/-!
Verification of aws-throwaway (src/aws-throwaway/src/lib.rs) against its
specification.  The AWS SDK client is external: every SDK call is modelled
by its request value or by the response/result values the code consumes,
passed in as explicit inputs.  The code's own control flow (loops, retries,
error branches, panics) is embedded as executable Lean functions.
-/

namespace AwsThrowaway

/-- One entry of a DescribeTags response: the SDK exposes the tagged
resource's id as an optional string (lib.rs consumes it via
tag.resource_id()). -/
structure TagDescription where
  resource_id : Option String
deriving DecidableEq

/-- The ids collected from one tag-query response: each entry's resource id
when present.  Mirrors the accumulation loops in Aws::get_all_throwaway_tags
(lib.rs lines 349-354 and 357-365) which push tag.resource_id() when it is
Some. -/
def tagIds (tags : List TagDescription) : List String :=
  tags.filterMap (fun t => t.resource_id)

/-- Shallow embedding of Aws::get_all_throwaway_tags (lib.rs 339-370).
user_tags is the response of tags.fetch_user_tags (resources tagged with the
principal); app_tags the optional response of tags.fetch_app_tags (None when
no application label is configured).  The code first collects ids_of_user;
when app_tags is Some it returns the app-tagged ids that also occur in
ids_of_user, otherwise ids_of_user itself. -/
def get_all_throwaway_tags (user_tags : List TagDescription)
    (app_tags : Option (List TagDescription)) : List String :=
  let ids_of_user := tagIds user_tags
  match app_tags with
  | some app_tags => (tagIds app_tags).filter (fun id => ids_of_user.contains id)
  | none => ids_of_user

/-- Machine definition fields consumed by Aws::create_ec2_instance
(ec2_instance_definition.rs). -/
structure Ec2InstanceDefinition where
  instance_type : String
  volume_size_gb : Nat
  network_interface_count : Nat

/-- The Aws handle fields consumed by create_ec2_instance and the readiness
poll (lib.rs 156-170). -/
structure Aws where
  use_public_addresses : Bool
  keyname : String
  security_group_id : String
  placement_group_name : String
  subnet_id : String
  subnet_map_public_ip_on_launch : Bool
  host_public_key : String
  host_private_key : String

/-- Number of allocate_address calls issued by create_ec2_instance
(lib.rs 481-497): the code builds Some(allocate_address ...) exactly when
use_public_addresses && network_interface_count > 1, and None otherwise. -/
def elasticIpsAllocated (aws : Aws) (defn : Ec2InstanceDefinition) : Nat :=
  if aws.use_public_addresses && decide (defn.network_interface_count > 1) then 1 else 0

/-- One entry of the boot script template of lib.rs 565-575, seen as a shell
command.  write renders an overwriting redirect, appendTo an appending
one. -/
inductive BootCommand where
  | shebang
  | stopSsh
  | write (content : String) (path : String)
  | appendTo (content : String) (path : String)
  | startSsh
  | blank
  | trailing
deriving DecidableEq

/-- Rendering of one boot-script command back to the exact line of the
source template. -/
def BootCommand.render : BootCommand → String
  | .shebang => "#!/bin/bash"
  | .stopSsh => "sudo systemctl stop ssh"
  | .write content path => "echo \"" ++ content ++ "\" > " ++ path
  | .appendTo content path => "echo \"" ++ content ++ "\" >> " ++ path
  | .startSsh => "sudo systemctl start ssh"
  | .blank => ""
  | .trailing => "            "

/-- True exactly for the command restarting the SSH daemon. -/
def BootCommand.isStartSsh : BootCommand → Bool
  | .startSsh => true
  | _ => false

/-- The boot script of lib.rs 565-575 as its list of commands, in source
order: stop sshd, overwrite the public then the private host-key file,
append the keep-alive setting, start sshd. -/
def bootScriptCommands (host_public_key host_private_key : String) : List BootCommand :=
  [ BootCommand.shebang,
    BootCommand.stopSsh,
    BootCommand.write host_public_key "/etc/ssh/ssh_host_ed25519_key.pub",
    BootCommand.write host_private_key "/etc/ssh/ssh_host_ed25519_key",
    BootCommand.blank,
    BootCommand.appendTo "ClientAliveInterval 30" "/etc/ssh/sshd_config",
    BootCommand.startSsh,
    BootCommand.trailing ]

/-- The boot script string handed (base64-encoded, encoding external) to
user_data in run_instances. -/
def bootScript (host_public_key host_private_key : String) : String :=
  String.intercalate "\n"
    ((bootScriptCommands host_public_key host_private_key).map BootCommand.render)

/-- The command-list model renders to exactly the source's format string
(lib.rs 566-573) at sample key texts. -/
example : bootScript "PUB" "PRIV" =
    "#!/bin/bash\nsudo systemctl stop ssh\necho \"PUB\" > /etc/ssh/ssh_host_ed25519_key.pub\necho \"PRIV\" > /etc/ssh/ssh_host_ed25519_key\n\necho \"ClientAliveInterval 30\" >> /etc/ssh/sshd_config\nsudo systemctl start ssh\n            " := by
  rfl

/-- One per-interface specification built at lib.rs 551-559. -/
structure InstanceNetworkInterfaceSpecification where
  delete_on_termination : Bool
  device_index : Nat
  groups : List String
  associate_public_ip_address : Bool
  subnet_id : String
  description : String

/-- The run_instances request assembled at lib.rs 515-584 (fields the
builder sets; tag specifications omitted, image resolution at 506-514 is
passed in as image_id). -/
structure RunInstancesRequest where
  instance_type : String
  placement_group_name : String
  availability_zone : String
  subnet_id : Option String
  min_count : Nat
  max_count : Nat
  volume_size_gb : Nat
  security_group_ids : Option (List String)
  network_interfaces : Option (List InstanceNetworkInterfaceSpecification)
  key_name : String
  user_data_script : String
  image_id : String

/-- Availability zone constant of lib.rs 29. -/
def AZ : String := "us-east-1c"

/-- Shallow embedding of the launch-request construction in
Aws::create_ec2_instance (lib.rs 500-584): security_group_ids is set only
for a single interface (500-504), subnet_id only for a single interface
(525-529), network_interfaces only for count different from 1, one spec per
index in 0..count with that device index (545-563). -/
def run_instances_request (aws : Aws) (defn : Ec2InstanceDefinition)
    (image_id : String) : RunInstancesRequest :=
  { instance_type := defn.instance_type
    placement_group_name := aws.placement_group_name
    availability_zone := AZ
    subnet_id := if defn.network_interface_count = 1 then some aws.subnet_id else none
    min_count := 1
    max_count := 1
    volume_size_gb := defn.volume_size_gb
    security_group_ids :=
      if defn.network_interface_count = 1 then some [aws.security_group_id] else none
    network_interfaces :=
      if defn.network_interface_count = 1 then none
      else some ((List.range defn.network_interface_count).map (fun i =>
        { delete_on_termination := true
          device_index := i
          groups := [aws.security_group_id]
          associate_public_ip_address := false
          subnet_id := aws.subnet_id
          description := toString i }))
    key_name := aws.keyname
    user_data_script := bootScript aws.host_public_key aws.host_private_key
    image_id := image_id }

/-- One instance of a DescribeInstances response, with the two address
fields the poll consumes (lib.rs 665-669). -/
structure DescribedInstance where
  public_ip_address : Option String
  private_ip_address : Option String

/-- One reservation of a DescribeInstances response. -/
structure Reservation where
  instances : List DescribedInstance

/-- The result of one describe_instances call as consumed at lib.rs 661-680:
success carries the reservations, failure carries the optional service error
code. -/
inductive DescribeResult where
  | ok (reservations : List Reservation)
  | err (code : Option String)

/-- The mutable address state of the readiness poll (public_ip, private_ip
at lib.rs 639-640). -/
structure IpState where
  public_ip : Option String
  private_ip : Option String
deriving DecidableEq

/-- Effect of one described instance on the poll state (lib.rs 665-669):
public_ip is overwritten from the instance only while still None; private_ip
is overwritten unconditionally. -/
def applyInstance (s : IpState) (inst : DescribedInstance) : IpState :=
  { public_ip := if s.public_ip.isNone then inst.public_ip_address else s.public_ip
    private_ip := inst.private_ip_address }

/-- Effect of one successful describe response: the nested loops over
reservations and their instances (lib.rs 663-671). -/
def applyDescribeOutput (s : IpState) (reservations : List Reservation) : IpState :=
  reservations.foldl (fun s r => r.instances.foldl applyInstance s) s

/-- The while-condition of the readiness poll (lib.rs 649). -/
def pollContinues (public_ip_expected : Bool) (s : IpState) : Bool :=
  (public_ip_expected && s.public_ip.isNone) || s.private_ip.isNone

/-- How a run of the readiness poll ends: ready (loop condition became
false), fatal (panic on an unexpected describe error), or pending (the
supplied response trace ran out with the loop still going). -/
inductive PollOutcome where
  | ready (s : IpState)
  | fatal (code : Option String)
  | pending (s : IpState)
deriving DecidableEq

/-- Shallow embedding of the readiness poll (lib.rs 644-681) over a trace of
describe results.  Each loop iteration sleeps 1 second (recorded in the
returned list) then consumes one describe result: a success folds the
response into the state, an InvalidInstanceID.NotFound error is swallowed
and retried, any other error panics (fatal). -/
def readinessPoll (expected : Bool) : IpState → List DescribeResult → PollOutcome × List Nat
  | s, responses =>
    if pollContinues expected s then
      match responses with
      | [] => (PollOutcome.pending s, [])
      | DescribeResult.ok reservations :: rest =>
        let r := readinessPoll expected (applyDescribeOutput s reservations) rest
        (r.1, 1 :: r.2)
      | DescribeResult.err code :: rest =>
        if code = some "InvalidInstanceID.NotFound" then
          let r := readinessPoll expected s rest
          (r.1, 1 :: r.2)
        else (PollOutcome.fatal code, [1])
    else (PollOutcome.ready s, [])

/-- The public-address exit condition is awaited when the caller configured
public addressing or the subnet auto-assigns a public IP (lib.rs 642). -/
def public_ip_expected (aws : Aws) : Bool :=
  aws.use_public_addresses || aws.subnet_map_public_ip_on_launch

/-- The connect-address selection at lib.rs 684-688, with the unwraps
modelled at the Option level: the public address when use_public_addresses,
the private address otherwise. -/
def selectConnectIp (use_public_addresses : Bool) (public_ip private_ip : Option String) :
    Option String :=
  if use_public_addresses then public_ip else private_ip

/-- How a run of the elastic-address association loop ends (lib.rs 609-637):
associated (a call succeeded, break), fatal (a failure after more than 120
elapsed seconds, panic), or pending (the supplied attempt trace ran out). -/
inductive AssociateOutcome where
  | associated
  | fatal
  | pending
deriving DecidableEq

/-- Shallow embedding of the associate_address retry loop (lib.rs 609-637).
Each trace element is one associate_address attempt: its wall-clock duration
in seconds and whether it succeeded.  elapsed accumulates the wall clock
since start; on success the loop breaks at once, on failure it panics when
elapsed exceeds 120 seconds and otherwise sleeps 2 seconds (recorded in the
returned list) and retries. -/
def associateAddressLoop : Nat → List (Nat × Bool) → AssociateOutcome × List Nat
  | _, [] => (AssociateOutcome.pending, [])
  | elapsed, (d, success) :: rest =>
    if success then (AssociateOutcome.associated, [])
    else if elapsed + d > 120 then (AssociateOutcome.fatal, [])
    else
      let r := associateAddressLoop (elapsed + d + 2) rest
      (r.1, 2 :: r.2)

/-- One provider call issued by Aws::cleanup_resources_inner and the three
delete helpers (lib.rs 372-477). -/
inductive CleanupAction where
  | releaseAddress (id : String)
  | terminateInstances (ids : List String)
  | deleteSecurityGroup (id : String)
  | describePlacementGroups (ids : List String)
  | deletePlacementGroup (nm : String)
  | deleteKeyPair (id : String)
deriving DecidableEq

/-- Phase rank of a cleanup action: elastic-address releases first,
instance termination second, the joined deletions last. -/
def phaseRank : CleanupAction → Nat
  | CleanupAction.releaseAddress _ => 0
  | CleanupAction.terminateInstances _ => 1
  | _ => 2

/-- Shallow embedding of the elastic-ip loop of cleanup_resources_inner
(lib.rs 374-386).  Each input pairs a discovered allocation id with the
success of its release_address call.  The code unwraps each result, so a
failure panics: the returned Bool is true when the loop panicked, and the
action list holds exactly the attempted release calls. -/
def releaseAddressesTrace : List (String × Bool) → List CleanupAction × Bool
  | [] => ([], false)
  | (id, success) :: rest =>
    if success then
      let r := releaseAddressesTrace rest
      (CleanupAction.releaseAddress id :: r.1, r.2)
    else ([CleanupAction.releaseAddress id], true)

/-- Shallow embedding of the instance-termination step (lib.rs 388-408):
one batched terminate_instances call carrying all discovered ids, issued
only when the list is nonempty; its result is unwrapped, so a failure
panics (returned Bool true). -/
def terminateInstancesTrace (ids : List String) (success : Bool) :
    List CleanupAction × Bool :=
  if ids.isEmpty then ([], false)
  else ([CleanupAction.terminateInstances ids], !success)

/-- Shallow embedding of Aws::delete_security_groups (lib.rs 417-428): every
discovered group id gets one delete_security_group call; an Err is only
logged, so all ids are attempted whatever the per-call results. -/
def delete_security_groups_trace (results : List (String × Bool)) : List CleanupAction :=
  results.map (fun r => CleanupAction.deleteSecurityGroup r.1)

/-- Shallow embedding of Aws::delete_placement_groups (lib.rs 430-459): when
ids were discovered, one describe_placement_groups call resolves them to
names, then every returned name gets one delete_placement_group call; an Err
on a delete is only logged, so all names are attempted.  names pairs each
resolved name with its delete result. -/
def delete_placement_groups_trace (ids : List String) (names : List (String × Bool)) :
    List CleanupAction :=
  if ids.isEmpty then []
  else CleanupAction.describePlacementGroups ids ::
    names.map (fun n => CleanupAction.deletePlacementGroup n.1)

/-- Result of one delete_key_pair call as consumed at lib.rs 463-465. -/
inductive DeleteResult where
  | ok
  | err (code : Option String)
deriving DecidableEq

/-- How a run of Aws::delete_keypairs ends: completed the whole list,
returned early on an UnauthorizedOperation error, or panicked on any other
error. -/
inductive KeypairOutcome where
  | completed
  | stoppedEarly
  | panicked (id : String)
deriving DecidableEq

/-- Shallow embedding of Aws::delete_keypairs (lib.rs 461-477): each
discovered keypair id gets one delete_key_pair call; on success the loop
continues, on an error with code UnauthorizedOperation it logs and returns
(skipping all remaining keypairs), on any other error it panics. -/
def delete_keypairs_run : List (String × DeleteResult) → List CleanupAction × KeypairOutcome
  | [] => ([], KeypairOutcome.completed)
  | (id, DeleteResult.ok) :: rest =>
    let r := delete_keypairs_run rest
    (CleanupAction.deleteKeyPair id :: r.1, r.2)
  | (id, DeleteResult.err code) :: _rest =>
    if code = some "UnauthorizedOperation" then
      ([CleanupAction.deleteKeyPair id], KeypairOutcome.stoppedEarly)
    else ([CleanupAction.deleteKeyPair id], KeypairOutcome.panicked id)

/-- The three delete helpers as started by the tokio join at lib.rs 410-414:
each helper's call trace is a function of its own discovered ids and call
results only. -/
def deletes_phase (sgResults : List (String × Bool)) (pgIds : List String)
    (pgNames : List (String × Bool)) (kpResults : List (String × DeleteResult)) :
    List CleanupAction × List CleanupAction × (List CleanupAction × KeypairOutcome) :=
  (delete_security_groups_trace sgResults,
   delete_placement_groups_trace pgIds pgNames,
   delete_keypairs_run kpResults)

/-- ds is an interleaving of as, bs and cs: the concurrent execution orders
of three joined tasks whose own call orders are fixed. -/
inductive Interleave3 : List CleanupAction → List CleanupAction → List CleanupAction →
    List CleanupAction → Prop where
  | nil : Interleave3 [] [] [] []
  | cons1 (x : CleanupAction) {as bs cs ds : List CleanupAction} :
      Interleave3 as bs cs ds → Interleave3 (x :: as) bs cs (x :: ds)
  | cons2 (x : CleanupAction) {as bs cs ds : List CleanupAction} :
      Interleave3 as bs cs ds → Interleave3 as (x :: bs) cs (x :: ds)
  | cons3 (x : CleanupAction) {as bs cs ds : List CleanupAction} :
      Interleave3 as bs cs ds → Interleave3 as bs (x :: cs) (x :: ds)

/-- Shallow embedding of the phase sequencing of cleanup_resources_inner
(lib.rs 372-415): the release loop runs first and a panic there ends the
run; then the batched termination, a panic there ends the run; then the
three joined delete helpers, whose interleaved call order is passed in as
deletes. -/
def cleanup_resources_inner_run (addressResults : List (String × Bool))
    (instanceIds : List String) (terminateSuccess : Bool)
    (deletes : List CleanupAction) : List CleanupAction :=
  let rel := releaseAddressesTrace addressResults
  if rel.2 then rel.1
  else
    let term := terminateInstancesTrace instanceIds terminateSuccess
    if term.2 then rel.1 ++ term.1
    else rel.1 ++ term.1 ++ deletes

/-- C1: with no application label configured, get_all_throwaway_tags returns
exactly the principal-tagged ids; with a label configured it returns exactly
the ids occurring in both the principal-tagged and the label-tagged query
results. -/
theorem get_all_throwaway_tags_intersection :
    (∀ user_tags : List TagDescription,
      get_all_throwaway_tags user_tags none = tagIds user_tags) ∧
    (∀ (user_tags app_tags : List TagDescription) (id : String),
      id ∈ get_all_throwaway_tags user_tags (some app_tags) ↔
        id ∈ tagIds user_tags ∧ id ∈ tagIds app_tags) := by
  constructor
  · intro user_tags
    rfl
  · intro user_tags app_tags id
    simp only [get_all_throwaway_tags, List.mem_filter, List.elem_iff]
    tauto

/-- C2: create_ec2_instance allocates an elastic address exactly when more
than one network interface is requested and public addressing is
configured; with a single interface or public addressing disabled it
allocates none. -/
theorem create_ec2_instance_elastic_ip_policy :
    ∀ (aws : Aws) (defn : Ec2InstanceDefinition),
      (elasticIpsAllocated aws defn = 1 ↔
        defn.network_interface_count > 1 ∧ aws.use_public_addresses = true) ∧
      ((defn.network_interface_count = 1 ∨ aws.use_public_addresses = false) →
        elasticIpsAllocated aws defn = 0) := by
  intro aws defn
  constructor
  · unfold elasticIpsAllocated
    by_cases hpub : aws.use_public_addresses = true <;>
      by_cases hcount : defn.network_interface_count > 1 <;>
      simp [hpub, hcount]
  · intro h
    unfold elasticIpsAllocated
    rcases h with h | h
    · simp [h]
    · simp [h]

/-- C3: the launch request carries exactly one of the two attachment forms:
with a single requested interface it has the subnet id and the
instance-level security-group list and no per-interface specs; with more
than one it has neither the subnet id nor the security-group list but
exactly count per-interface specs whose device indices are 0..count-1. -/
theorem run_instances_exclusive_attachment :
    ∀ (aws : Aws) (defn : Ec2InstanceDefinition) (image_id : String),
      (defn.network_interface_count = 1 →
        (run_instances_request aws defn image_id).subnet_id = some aws.subnet_id ∧
        (run_instances_request aws defn image_id).security_group_ids
          = some [aws.security_group_id] ∧
        (run_instances_request aws defn image_id).network_interfaces = none) ∧
      (defn.network_interface_count > 1 →
        (run_instances_request aws defn image_id).subnet_id = none ∧
        (run_instances_request aws defn image_id).security_group_ids = none ∧
        ∃ specs, (run_instances_request aws defn image_id).network_interfaces = some specs ∧
          specs.length = defn.network_interface_count ∧
          ∀ (i : Nat) (h : i < specs.length), (specs.get ⟨i, h⟩).device_index = i) := by
  intro aws defn image_id
  constructor
  · intro h1
    simp [run_instances_request, h1]
  · intro hgt
    have h1 : defn.network_interface_count ≠ 1 := by omega
    refine ⟨by simp [run_instances_request, h1], by simp [run_instances_request, h1], ?_⟩
    refine ⟨(List.range defn.network_interface_count).map (fun i =>
        { delete_on_termination := true, device_index := i, groups := [aws.security_group_id],
          associate_public_ip_address := false, subnet_id := aws.subnet_id,
          description := toString i }), ?_, ?_, ?_⟩
    · simp [run_instances_request, h1]
    · simp
    · intro i h
      simp [List.get_eq_getElem]

/-- C4: for every key pair, the boot script stops the SSH daemon before the
commands overwriting the public and private host-key files, contains the
keep-alive interval setting, and every occurrence of the command restarting
the SSH daemon comes after both host-key writes. -/
theorem bootScript_stops_sshd_around_host_key_writes :
    ∀ host_public_key host_private_key : String,
      ∃ iStop iPub iPriv iStart : Nat,
        (bootScriptCommands host_public_key host_private_key)[iStop]?
          = some BootCommand.stopSsh ∧
        (bootScriptCommands host_public_key host_private_key)[iPub]?
          = some (BootCommand.write host_public_key "/etc/ssh/ssh_host_ed25519_key.pub") ∧
        (bootScriptCommands host_public_key host_private_key)[iPriv]?
          = some (BootCommand.write host_private_key "/etc/ssh/ssh_host_ed25519_key") ∧
        (bootScriptCommands host_public_key host_private_key)[iStart]?
          = some BootCommand.startSsh ∧
        iStop < iPub ∧ iStop < iPriv ∧ iPub < iStart ∧ iPriv < iStart ∧
        (∀ (i : Nat) (c : BootCommand),
          (bootScriptCommands host_public_key host_private_key)[i]? = some c →
          c.isStartSsh = true → i = iStart) ∧
        BootCommand.appendTo "ClientAliveInterval 30" "/etc/ssh/sshd_config"
          ∈ bootScriptCommands host_public_key host_private_key := by
  intro pubKey privKey
  refine ⟨1, 2, 3, 6, rfl, rfl, rfl, rfl, by omega, by omega, by omega, by omega, ?_, ?_⟩
  · intro i c hget hstart
    match i with
    | 0 | 1 | 4 | 5 | 7 =>
      simp only [bootScriptCommands, List.getElem?_cons_zero, List.getElem?_cons_succ,
        Option.some_inj] at hget
      subst hget
      simp [BootCommand.isStartSsh] at hstart
    | 2 | 3 =>
      simp only [bootScriptCommands, List.getElem?_cons_zero, List.getElem?_cons_succ,
        Option.some_inj] at hget
      subst hget
      simp [BootCommand.isStartSsh] at hstart
    | 6 => rfl
    | n + 8 =>
      rw [List.getElem?_eq_none (by simp [bootScriptCommands])] at hget
      exact Option.noConfusion hget
  · simp [bootScriptCommands]

/-- When the readiness poll returns ready, the loop condition of lib.rs 649
is false in the final state. -/
lemma readinessPoll_ready_not_continues (expected : Bool) :
    ∀ (responses : List DescribeResult) (s s' : IpState),
      (readinessPoll expected s responses).1 = PollOutcome.ready s' →
      pollContinues expected s' = false := by
  intro responses
  induction responses with
  | nil =>
    intro s s' h
    rw [readinessPoll.eq_def] at h
    cases hc : pollContinues expected s with
    | true => simp [hc] at h
    | false =>
      simp [hc] at h
      rw [← h]
      exact hc
  | cons r rest ih =>
    intro s s' h
    rw [readinessPoll.eq_def] at h
    cases hc : pollContinues expected s with
    | false =>
      simp [hc] at h
      rw [← h]
      exact hc
    | true =>
      cases r with
      | ok reservations =>
        simp [hc] at h
        exact ih _ _ h
      | err code =>
        by_cases hcode : code = some "InvalidInstanceID.NotFound"
        · simp [hc, hcode] at h
          exact ih _ _ h
        · simp [hc, hcode] at h

/-- The loop condition being false means the private address is assigned
and, when a public address is awaited, the public address is assigned. -/
lemma not_continues_ips_assigned (expected : Bool) (s : IpState)
    (h : pollContinues expected s = false) :
    s.private_ip.isSome = true ∧ (expected = true → s.public_ip.isSome = true) := by
  unfold pollContinues at h
  simp only [Bool.or_eq_false_iff, Bool.and_eq_false_iff] at h
  obtain ⟨h1, h2⟩ := h
  constructor
  · cases hp : s.private_ip with
    | none => rw [hp] at h2; simp at h2
    | some v => rfl
  · intro he
    rcases h1 with h1 | h1
    · rw [he] at h1; exact absurd h1 (by simp)
    · cases hp : s.public_ip with
      | none => rw [hp] at h1; simp at h1
      | some v => rfl

/-- C5: the readiness poll sleeps 1 second per attempt with no bound on the
number of attempts, exits ready only with a private address assigned (and a
public address assigned when one is awaited), swallows and retries
InvalidInstanceID.NotFound describe errors, and treats any other describe
error as fatal. -/
theorem readinessPoll_exit_and_error_policy :
    (∀ (aws : Aws) (s : IpState) (responses : List DescribeResult) (s' : IpState)
        (sleeps : List Nat),
      readinessPoll (public_ip_expected aws) s responses = (PollOutcome.ready s', sleeps) →
      s'.private_ip.isSome = true ∧
      (public_ip_expected aws = true → s'.public_ip.isSome = true)) ∧
    (∀ (expected : Bool) (s : IpState) (rest : List DescribeResult),
      pollContinues expected s = true →
      readinessPoll expected s (DescribeResult.err (some "InvalidInstanceID.NotFound") :: rest)
        = ((readinessPoll expected s rest).1, 1 :: (readinessPoll expected s rest).2)) ∧
    (∀ (expected : Bool) (s : IpState) (code : Option String) (rest : List DescribeResult),
      pollContinues expected s = true → code ≠ some "InvalidInstanceID.NotFound" →
      readinessPoll expected s (DescribeResult.err code :: rest)
        = (PollOutcome.fatal code, [1])) ∧
    (∀ (expected : Bool) (s : IpState) (responses : List DescribeResult),
      ∀ x ∈ (readinessPoll expected s responses).2, x = 1) ∧
    (∀ (expected : Bool) (s : IpState) (n : Nat),
      pollContinues expected s = true →
      (readinessPoll expected s
        (List.replicate n (DescribeResult.err (some "InvalidInstanceID.NotFound")))).1
        = PollOutcome.pending s) := by
  refine ⟨?_, ?_, ?_, ?_, ?_⟩
  · intro aws s responses s' sleeps h
    have h1 : (readinessPoll (public_ip_expected aws) s responses).1 = PollOutcome.ready s' := by
      rw [h]
    exact not_continues_ips_assigned _ _
      (readinessPoll_ready_not_continues _ _ _ _ h1)
  · intro expected s rest hc
    rw [readinessPoll.eq_def]
    simp [hc]
  · intro expected s code rest hc hcode
    rw [readinessPoll.eq_def]
    simp [hc, hcode]
  · intro expected s responses
    induction responses generalizing s with
    | nil =>
      intro x hx
      rw [readinessPoll.eq_def] at hx
      cases hc : pollContinues expected s <;> simp [hc] at hx
    | cons r rest ih =>
      intro x hx
      rw [readinessPoll.eq_def] at hx
      cases hc : pollContinues expected s with
      | false => simp [hc] at hx
      | true =>
        cases r with
        | ok reservations =>
          simp [hc] at hx
          rcases hx with hx | hx
          · exact hx
          · exact ih _ x hx
        | err code =>
          by_cases hcode : code = some "InvalidInstanceID.NotFound"
          · simp [hc, hcode] at hx
            rcases hx with hx | hx
            · exact hx
            · exact ih _ x hx
          · simp [hc, hcode] at hx
            exact hx
  · intro expected s n hc
    induction n with
    | zero =>
      rw [List.replicate_zero, readinessPoll]
      simp [hc]
    | succ n ih =>
      rw [List.replicate_succ, readinessPoll]
      simp [hc, ih]

/-- C10: whenever the readiness poll exits ready, the private address is
assigned; when use_public_addresses is true the awaited-public condition was
in force, so the public address is assigned too, and the connect-address
selection of lib.rs 684-688 never unwraps a None. -/
theorem connect_ip_selection_never_fails :
    ∀ (aws : Aws) (s : IpState) (responses : List DescribeResult) (s' : IpState)
      (sleeps : List Nat),
      readinessPoll (public_ip_expected aws) s responses = (PollOutcome.ready s', sleeps) →
      s'.private_ip.isSome = true ∧
      (aws.use_public_addresses = true → s'.public_ip.isSome = true) ∧
      (selectConnectIp aws.use_public_addresses s'.public_ip s'.private_ip).isSome = true := by
  intro aws s responses s' sleeps h
  have h1 : (readinessPoll (public_ip_expected aws) s responses).1 = PollOutcome.ready s' := by
    rw [h]
  have hstop := not_continues_ips_assigned _ _ (readinessPoll_ready_not_continues _ _ _ _ h1)
  obtain ⟨hpriv, hpub⟩ := hstop
  refine ⟨hpriv, ?_, ?_⟩
  · intro hu
    exact hpub (by simp [public_ip_expected, hu])
  · unfold selectConnectIp
    cases hu : aws.use_public_addresses with
    | true => simpa using hpub (by simp [public_ip_expected, hu])
    | false => simpa using hpriv

/-- C10 witness: a concrete ready poll run with public addressing
configured, evaluated end to end. -/
theorem connect_ip_selection_never_fails_witness :
    (IpState.mk (some "3.83.1.7") (some "172.31.0.5")).private_ip.isSome = true ∧
    ((Aws.mk true "kn" "sg" "pg" "sn" false "hpub" "hpriv").use_public_addresses = true →
      (IpState.mk (some "3.83.1.7") (some "172.31.0.5")).public_ip.isSome = true) ∧
    (selectConnectIp (Aws.mk true "kn" "sg" "pg" "sn" false "hpub" "hpriv").use_public_addresses
      (IpState.mk (some "3.83.1.7") (some "172.31.0.5")).public_ip
      (IpState.mk (some "3.83.1.7") (some "172.31.0.5")).private_ip).isSome = true :=
  connect_ip_selection_never_fails (Aws.mk true "kn" "sg" "pg" "sn" false "hpub" "hpriv")
    (IpState.mk none none)
    [DescribeResult.ok [Reservation.mk [DescribedInstance.mk (some "3.83.1.7") (some "172.31.0.5")]]]
    (IpState.mk (some "3.83.1.7") (some "172.31.0.5")) [1] (by rfl)

/-- C6: after an elastic address was allocated, a successful association
exits the retry loop immediately; a failed attempt ending after more than
120 elapsed seconds is fatal; a failed attempt within the bound sleeps
exactly 2 seconds and retries; every backoff recorded by a run is 2
seconds. -/
theorem associateAddressLoop_retry_policy :
    (∀ (elapsed d : Nat) (rest : List (Nat × Bool)),
      associateAddressLoop elapsed ((d, true) :: rest) = (AssociateOutcome.associated, [])) ∧
    (∀ (elapsed d : Nat) (rest : List (Nat × Bool)),
      elapsed + d > 120 →
      associateAddressLoop elapsed ((d, false) :: rest) = (AssociateOutcome.fatal, [])) ∧
    (∀ (elapsed d : Nat) (rest : List (Nat × Bool)),
      elapsed + d ≤ 120 →
      associateAddressLoop elapsed ((d, false) :: rest)
        = ((associateAddressLoop (elapsed + d + 2) rest).1,
           2 :: (associateAddressLoop (elapsed + d + 2) rest).2)) ∧
    (∀ (elapsed : Nat) (attempts : List (Nat × Bool)),
      ∀ x ∈ (associateAddressLoop elapsed attempts).2, x = 2) := by
  refine ⟨?_, ?_, ?_, ?_⟩
  · intro elapsed d rest
    rw [associateAddressLoop]
    simp
  · intro elapsed d rest hgt
    rw [associateAddressLoop]
    simp [hgt]
  · intro elapsed d rest hle
    rw [associateAddressLoop]
    have : ¬(elapsed + d > 120) := by omega
    simp [this]
  · intro elapsed attempts
    induction attempts generalizing elapsed with
    | nil =>
      intro x hx
      rw [associateAddressLoop] at hx
      simp at hx
    | cons a rest ih =>
      intro x hx
      obtain ⟨d, success⟩ := a
      rw [associateAddressLoop] at hx
      cases success with
      | true => simp at hx
      | false =>
        by_cases hgt : elapsed + d > 120
        · simp [hgt] at hx
        · simp [hgt] at hx
          rcases hx with hx | hx
          · exact hx
          · exact ih _ x hx

/-- Every action of the release loop is an elastic-address release (phase
rank 0). -/
lemma releaseAddressesTrace_rank :
    ∀ (results : List (String × Bool)), ∀ a ∈ (releaseAddressesTrace results).1,
      phaseRank a = 0 := by
  intro results
  induction results with
  | nil =>
    intro a ha
    simp [releaseAddressesTrace] at ha
  | cons r rest ih =>
    intro a ha
    obtain ⟨id, success⟩ := r
    cases success with
    | true =>
      simp [releaseAddressesTrace] at ha
      rcases ha with ha | ha
      · subst ha; rfl
      · exact ih a ha
    | false =>
      simp [releaseAddressesTrace] at ha
      subst ha; rfl

/-- Every action of the termination step is the batched terminate call
(phase rank 1). -/
lemma terminateInstancesTrace_rank (ids : List String) (success : Bool) :
    ∀ a ∈ (terminateInstancesTrace ids success).1, phaseRank a = 1 := by
  intro a ha
  unfold terminateInstancesTrace at ha
  by_cases hids : ids.isEmpty
  · simp [hids] at ha
  · simp [hids] at ha
    subst ha; rfl

/-- Every action of the keypair loop is a keypair delete (phase rank 2). -/
lemma delete_keypairs_run_rank :
    ∀ (results : List (String × DeleteResult)), ∀ a ∈ (delete_keypairs_run results).1,
      phaseRank a = 2 := by
  intro results
  induction results with
  | nil =>
    intro a ha
    simp [delete_keypairs_run] at ha
  | cons r rest ih =>
    intro a ha
    obtain ⟨id, result⟩ := r
    cases result with
    | ok =>
      simp [delete_keypairs_run] at ha
      rcases ha with ha | ha
      · subst ha; rfl
      · exact ih a ha
    | err code =>
      by_cases hcode : code = some "UnauthorizedOperation" <;>
        simp [delete_keypairs_run, hcode] at ha <;>
        (subst ha; rfl)

/-- Every action of the security-group helper is a group delete (phase
rank 2). -/
lemma delete_security_groups_trace_rank (results : List (String × Bool)) :
    ∀ a ∈ delete_security_groups_trace results, phaseRank a = 2 := by
  intro a ha
  simp [delete_security_groups_trace, List.mem_map] at ha
  obtain ⟨r, _, hr⟩ := ha
  subst hr; rfl

/-- Every action of the placement-group helper is the name resolution or a
name-addressed delete (phase rank 2). -/
lemma delete_placement_groups_trace_rank (ids : List String) (names : List (String × Bool)) :
    ∀ a ∈ delete_placement_groups_trace ids names, phaseRank a = 2 := by
  intro a ha
  unfold delete_placement_groups_trace at ha
  by_cases hids : ids.isEmpty
  · simp [hids] at ha
  · simp [hids] at ha
    rcases ha with ha | ⟨n, hn1, hn⟩
    · subst ha; rfl
    · subst hn; rfl

/-- An element of an interleaving comes from one of the three interleaved
lists. -/
lemma Interleave3.mem_source {as bs cs ds : List CleanupAction}
    (h : Interleave3 as bs cs ds) :
    ∀ x ∈ ds, x ∈ as ∨ x ∈ bs ∨ x ∈ cs := by
  induction h with
  | nil =>
    intro x hx
    simp at hx
  | cons1 y _ ih =>
    intro x hx
    rcases List.mem_cons.mp hx with hx | hx
    · exact Or.inl (by simp [hx])
    · rcases ih x hx with h | h | h
      · exact Or.inl (by simp [h])
      · exact Or.inr (Or.inl h)
      · exact Or.inr (Or.inr h)
  | cons2 y _ ih =>
    intro x hx
    rcases List.mem_cons.mp hx with hx | hx
    · exact Or.inr (Or.inl (by simp [hx]))
    · rcases ih x hx with h | h | h
      · exact Or.inl h
      · exact Or.inr (Or.inl (by simp [h]))
      · exact Or.inr (Or.inr h)
  | cons3 y _ ih =>
    intro x hx
    rcases List.mem_cons.mp hx with hx | hx
    · exact Or.inr (Or.inr (by simp [hx]))
    · rcases ih x hx with h | h | h
      · exact Or.inl h
      · exact Or.inr (Or.inl h)
      · exact Or.inr (Or.inr (by simp [h]))

/-- A list whose actions all have one phase rank is rank-monotone. -/
lemma pairwise_rank_const {l : List CleanupAction} {k : Nat}
    (h : ∀ a ∈ l, phaseRank a = k) :
    l.Pairwise (fun a b => phaseRank a ≤ phaseRank b) := by
  induction l with
  | nil => exact List.Pairwise.nil
  | cons a rest ih =>
    refine List.Pairwise.cons ?_ (ih ?_)
    · intro b hb
      rw [h a (by simp), h b (by simp [hb])]
    · intro b hb
      exact h b (by simp [hb])

/-- C7: for every interleaved order of the three joined delete helpers, the
reclaim trace is phase-monotone: releases come before the batched terminate
call, which comes before every group and keypair deletion; the instances go
into one batched terminate call carrying all discovered ids; placement
groups are resolved to names by one describe call placed before their
deletes, which address them by name. -/
theorem cleanup_phase_ordering :
    ∀ (addressResults : List (String × Bool)) (instanceIds : List String)
      (terminateSuccess : Bool) (sgResults : List (String × Bool))
      (pgIds : List String) (pgNames : List (String × Bool))
      (kpResults : List (String × DeleteResult)) (deletes : List CleanupAction),
      Interleave3 (delete_security_groups_trace sgResults)
        (delete_placement_groups_trace pgIds pgNames)
        (delete_keypairs_run kpResults).1 deletes →
      (cleanup_resources_inner_run addressResults instanceIds terminateSuccess
        deletes).Pairwise (fun a b => phaseRank a ≤ phaseRank b) ∧
      (instanceIds ≠ [] →
        (terminateInstancesTrace instanceIds terminateSuccess).1
          = [CleanupAction.terminateInstances instanceIds]) ∧
      (pgIds ≠ [] →
        delete_placement_groups_trace pgIds pgNames
          = CleanupAction.describePlacementGroups pgIds ::
            pgNames.map (fun n => CleanupAction.deletePlacementGroup n.1)) := by
  intro addressResults instanceIds terminateSuccess sgResults pgIds pgNames kpResults
    deletes hinter
  have hdel : ∀ a ∈ deletes, phaseRank a = 2 := by
    intro a ha
    rcases hinter.mem_source a ha with h | h | h
    · exact delete_security_groups_trace_rank _ a h
    · exact delete_placement_groups_trace_rank _ _ a h
    · exact delete_keypairs_run_rank _ a h
  refine ⟨?_, ?_, ?_⟩
  · unfold cleanup_resources_inner_run
    by_cases hrel : (releaseAddressesTrace addressResults).2
    · simp only [hrel, if_true]
      exact pairwise_rank_const (releaseAddressesTrace_rank addressResults)
    · simp only [hrel, Bool.false_eq_true, if_false]
      by_cases hterm : (terminateInstancesTrace instanceIds terminateSuccess).2
      · simp only [hterm, if_true]
        refine List.pairwise_append.mpr
          ⟨pairwise_rank_const (releaseAddressesTrace_rank addressResults),
           pairwise_rank_const (terminateInstancesTrace_rank instanceIds terminateSuccess),
           ?_⟩
        intro a ha b hb
        rw [releaseAddressesTrace_rank addressResults a ha,
          terminateInstancesTrace_rank instanceIds terminateSuccess b hb]
        omega
      · simp only [hterm, Bool.false_eq_true, if_false]
        rw [List.append_assoc]
        refine List.pairwise_append.mpr
          ⟨pairwise_rank_const (releaseAddressesTrace_rank addressResults), ?_, ?_⟩
        · refine List.pairwise_append.mpr
            ⟨pairwise_rank_const (terminateInstancesTrace_rank instanceIds terminateSuccess),
             pairwise_rank_const hdel, ?_⟩
          intro a ha b hb
          rw [terminateInstancesTrace_rank instanceIds terminateSuccess a ha, hdel b hb]
          omega
        · intro a ha b hb
          rw [releaseAddressesTrace_rank addressResults a ha]
          rcases List.mem_append.mp hb with hb | hb
          · rw [terminateInstancesTrace_rank instanceIds terminateSuccess b hb]
            omega
          · rw [hdel b hb]
            omega
  · intro hne
    unfold terminateInstancesTrace
    simp [List.isEmpty_iff, hne]
  · intro hne
    unfold delete_placement_groups_trace
    simp [List.isEmpty_iff, hne]

/-- C7 witness: a concrete reclaim run of one address, one instance, one
security group, one placement group and one keypair, with a concrete
interleaving of the joined deletes. -/
theorem cleanup_phase_ordering_witness :
    (cleanup_resources_inner_run [("eip-1", true)] ["i-1"] true
        [CleanupAction.deleteSecurityGroup "sg-1",
         CleanupAction.describePlacementGroups ["pg-1"],
         CleanupAction.deletePlacementGroup "pgname",
         CleanupAction.deleteKeyPair "kp-1"]).Pairwise
      (fun a b => phaseRank a ≤ phaseRank b) ∧
    ((["i-1"] : List String) ≠ [] →
      (terminateInstancesTrace ["i-1"] true).1
        = [CleanupAction.terminateInstances ["i-1"]]) ∧
    ((["pg-1"] : List String) ≠ [] →
      delete_placement_groups_trace ["pg-1"] [("pgname", true)]
        = CleanupAction.describePlacementGroups ["pg-1"] ::
          [("pgname", true)].map (fun n => CleanupAction.deletePlacementGroup n.1)) :=
  cleanup_phase_ordering [("eip-1", true)] ["i-1"] true [("sg-1", true)] ["pg-1"]
    [("pgname", true)] [("kp-1", DeleteResult.ok)]
    [CleanupAction.deleteSecurityGroup "sg-1",
     CleanupAction.describePlacementGroups ["pg-1"],
     CleanupAction.deletePlacementGroup "pgname",
     CleanupAction.deleteKeyPair "kp-1"]
    (by
      show Interleave3 [CleanupAction.deleteSecurityGroup "sg-1"]
        [CleanupAction.describePlacementGroups ["pg-1"],
         CleanupAction.deletePlacementGroup "pgname"]
        [CleanupAction.deleteKeyPair "kp-1"]
        [CleanupAction.deleteSecurityGroup "sg-1",
         CleanupAction.describePlacementGroups ["pg-1"],
         CleanupAction.deletePlacementGroup "pgname",
         CleanupAction.deleteKeyPair "kp-1"]
      exact Interleave3.cons1 _ (Interleave3.cons2 _ (Interleave3.cons2 _
        (Interleave3.cons3 _ Interleave3.nil))))

/-- C8 counterexample: two discovered elastic addresses, the first release
fails.  The code unwraps the failure (lib.rs 380-384), so the run ends
there: the second address release and the instance termination are never
attempted, refuting catch-per-resource for the phases before keypair
deletion. -/
theorem cleanup_release_failure_aborts :
    releaseAddressesTrace [("eip-a", false), ("eip-b", true)]
      = ([CleanupAction.releaseAddress "eip-a"], true) ∧
    cleanup_resources_inner_run [("eip-a", false), ("eip-b", true)] ["i-1"] true
        [CleanupAction.deleteSecurityGroup "sg-1"]
      = [CleanupAction.releaseAddress "eip-a"] ∧
    CleanupAction.releaseAddress "eip-b"
      ∉ cleanup_resources_inner_run [("eip-a", false), ("eip-b", true)] ["i-1"] true
        [CleanupAction.deleteSecurityGroup "sg-1"] ∧
    CleanupAction.terminateInstances ["i-1"]
      ∉ cleanup_resources_inner_run [("eip-a", false), ("eip-b", true)] ["i-1"] true
        [CleanupAction.deleteSecurityGroup "sg-1"] := by
  refine ⟨rfl, rfl, ?_, ?_⟩ <;> decide

/-- C8 amended: security-group and placement-group deletion failures are
caught per-resource, every discovered group (and every resolved placement
group name) is attempted whatever the per-call results; but a failed
elastic-address release is propagated (the result is unwrapped): releases
stop at the first failure and the run ends before the termination and
delete phases; likewise a failed batched terminate call is propagated as a
panic: the terminate call is attempted but the delete phases are not. -/
theorem cleanup_failure_policy :
    (∀ (sgResults : List (String × Bool)) (id : String),
      id ∈ sgResults.map Prod.fst →
      CleanupAction.deleteSecurityGroup id ∈ delete_security_groups_trace sgResults) ∧
    (∀ (pgIds : List String) (pgNames : List (String × Bool)) (nm : String),
      pgIds ≠ [] →
      nm ∈ pgNames.map Prod.fst →
      CleanupAction.deletePlacementGroup nm ∈ delete_placement_groups_trace pgIds pgNames) ∧
    (∀ (pre : List (String × Bool)) (id : String) (post : List (String × Bool)),
      (∀ r ∈ pre, r.2 = true) →
      releaseAddressesTrace (pre ++ (id, false) :: post)
        = (pre.map (fun r => CleanupAction.releaseAddress r.1)
            ++ [CleanupAction.releaseAddress id], true)) ∧
    (∀ (addressResults : List (String × Bool)) (instanceIds : List String)
        (terminateSuccess : Bool) (deletes : List CleanupAction),
      (releaseAddressesTrace addressResults).2 = true →
      cleanup_resources_inner_run addressResults instanceIds terminateSuccess deletes
        = (releaseAddressesTrace addressResults).1) ∧
    (∀ (addressResults : List (String × Bool)) (instanceIds : List String)
        (deletes : List CleanupAction),
      (releaseAddressesTrace addressResults).2 = false →
      instanceIds ≠ [] →
      terminateInstancesTrace instanceIds false
        = ([CleanupAction.terminateInstances instanceIds], true) ∧
      cleanup_resources_inner_run addressResults instanceIds false deletes
        = (releaseAddressesTrace addressResults).1
          ++ [CleanupAction.terminateInstances instanceIds]) := by
  refine ⟨?_, ?_, ?_, ?_, ?_⟩
  · intro sgResults id hid
    simp only [List.mem_map] at hid
    obtain ⟨r, hr, hr1⟩ := hid
    simp only [delete_security_groups_trace, List.mem_map]
    exact ⟨r, hr, by rw [hr1]⟩
  · intro pgIds pgNames nm hne hnm
    simp only [List.mem_map] at hnm
    obtain ⟨n, hn, hn1⟩ := hnm
    unfold delete_placement_groups_trace
    simp only [List.isEmpty_iff, hne, if_false]
    exact List.mem_cons_of_mem _ (List.mem_map.mpr ⟨n, hn, by rw [hn1]⟩)
  · intro pre id post hpre
    induction pre with
    | nil => simp [releaseAddressesTrace]
    | cons r rest ih =>
      obtain ⟨rid, rsuccess⟩ := r
      have hr : rsuccess = true := hpre (rid, rsuccess) (by simp)
      subst hr
      simp only [List.cons_append, List.map_cons]
      rw [releaseAddressesTrace]
      simp only [if_true]
      rw [ih (fun r hr => hpre r (by simp [hr]))]
  · intro addressResults instanceIds terminateSuccess deletes hrel
    unfold cleanup_resources_inner_run
    simp [hrel]
  · intro addressResults instanceIds deletes hrel hne
    have hterm : terminateInstancesTrace instanceIds false
        = ([CleanupAction.terminateInstances instanceIds], true) := by
      unfold terminateInstancesTrace
      simp [List.isEmpty_iff, hne]
    refine ⟨hterm, ?_⟩
    unfold cleanup_resources_inner_run
    simp [hrel, hterm]

/-- C9: during keypair deletion a success moves on to the next keypair, an
UnauthorizedOperation failure stops all remaining keypair deletions without
panicking, any other failure code panics immediately, and the keypair
results have no effect on the security-group and placement-group helpers'
traces. -/
theorem delete_keypairs_error_policy :
    (∀ (id : String) (rest : List (String × DeleteResult)),
      delete_keypairs_run ((id, DeleteResult.ok) :: rest)
        = (CleanupAction.deleteKeyPair id :: (delete_keypairs_run rest).1,
           (delete_keypairs_run rest).2)) ∧
    (∀ (pre : List String) (id : String) (post : List (String × DeleteResult)),
      delete_keypairs_run (pre.map (fun i => (i, DeleteResult.ok))
          ++ (id, DeleteResult.err (some "UnauthorizedOperation")) :: post)
        = (pre.map CleanupAction.deleteKeyPair ++ [CleanupAction.deleteKeyPair id],
           KeypairOutcome.stoppedEarly)) ∧
    (∀ (id : String) (code : Option String) (rest : List (String × DeleteResult)),
      code ≠ some "UnauthorizedOperation" →
      delete_keypairs_run ((id, DeleteResult.err code) :: rest)
        = ([CleanupAction.deleteKeyPair id], KeypairOutcome.panicked id)) ∧
    (∀ (sgResults : List (String × Bool)) (pgIds : List String)
        (pgNames : List (String × Bool))
        (kpResults kpAlt : List (String × DeleteResult)),
      (deletes_phase sgResults pgIds pgNames kpResults).1
        = (deletes_phase sgResults pgIds pgNames kpAlt).1 ∧
      (deletes_phase sgResults pgIds pgNames kpResults).2.1
        = (deletes_phase sgResults pgIds pgNames kpAlt).2.1) := by
  refine ⟨?_, ?_, ?_, ?_⟩
  · intro id rest
    rfl
  · intro pre id post
    induction pre with
    | nil => simp [delete_keypairs_run]
    | cons i rest ih =>
      simp only [List.map_cons, List.cons_append]
      rw [delete_keypairs_run]
      rw [ih]
  · intro id code rest hcode
    rw [delete_keypairs_run]
    simp [hcode]
  · intro sgResults pgIds pgNames kpResults kpAlt
    exact ⟨rfl, rfl⟩

end AwsThrowaway
